import Mathlib

/-!
Shallow embedding of `src/main-task.py` (Tech Hub Intern Management System).

Python dictionaries are modelled as association lists with unique keys in
insertion order: assignment `d[k] = v` replaces the value in place when the
key is present and appends `(k, v)` otherwise, exactly as a Python dict
preserves the position of an existing key.  Python floats are modelled as
rationals; the scores stored by the program are integers.  Methods that
mutate `self` are modelled as functions returning the updated record paired
with the returned message string.
-/

/-- Python dict assignment `d[k] = v`, modelled on an association list:
replace in place if the key exists, otherwise append. -/
def dinsert {α : Type} (k : String) (v : α) : List (String × α) → List (String × α)
  | [] => [(k, v)]
  | p :: rest => if p.1 = k then (k, v) :: rest else p :: dinsert k v rest

/-- Python dict membership `k in d`. -/
def hasKey {α : Type} (k : String) (l : List (String × α)) : Bool :=
  l.any (fun p => p.1 = k)

/-- Python dict access `d[k]`, as an option (Python raises `KeyError` when absent). -/
def dlookup {α : Type} (k : String) : List (String × α) → Option α
  | [] => none
  | p :: rest => if p.1 = k then some p.2 else dlookup k rest

/-- Python `sum(d.values()) / len(d)` over a score dict, as a rational. -/
def avgOf (l : List (String × Int)) : ℚ :=
  (((l.map Prod.snd).sum : Int) : ℚ) / (l.length : ℚ)

/-- Python `str.lower()`, modelled character-wise (ASCII case folding). -/
def lowerStr (s : String) : String := String.mk (s.data.map Char.toLower)

/-- State of one `Attachee` object (`src/main-task.py`, class `Attachee`). -/
structure Attachee where
  name : String
  division : String
  tasks : List String
  feedback : List (String × String)
  scores : List (String × Int)
  average_score : ℚ
deriving DecidableEq

namespace Attachee

/-- Python `Attachee.__init__`. -/
def init (name division : String) : Attachee :=
  { name := name, division := division, tasks := [], feedback := [],
    scores := [], average_score := 0 }

/-- Python `Attachee.assign_task`. -/
def assign_task (a : Attachee) (task : String) : Attachee × String :=
  ({ a with tasks := a.tasks ++ [task],
            feedback := dinsert task "" a.feedback,
            scores := dinsert task 0 a.scores },
   "Task '" ++ task ++ "' assigned to " ++ a.name ++ " in " ++ a.division
     ++ " division.")

/-- Python `Attachee.add_feedback`. -/
def add_feedback (a : Attachee) (task feedback : String) : Attachee × String :=
  if task ∈ a.tasks then
    ({ a with feedback := dinsert task feedback a.feedback },
     "Feedback added for " ++ a.name ++ "'s task: '" ++ task ++ "'")
  else
    (a, "Error: Task '" ++ task ++ "' not assigned to " ++ a.name ++ ".")

/-- Python `Attachee._update_average_score`. -/
def _update_average_score (a : Attachee) : Attachee :=
  if a.scores.isEmpty then { a with average_score := 0 }
  else { a with average_score := avgOf a.scores }

/-- Python `Attachee.add_score`. -/
def add_score (a : Attachee) (task : String) (score : Int) : Attachee × String :=
  if task ∈ a.tasks then
    if 0 ≤ score ∧ score ≤ 10 then
      (_update_average_score { a with scores := dinsert task score a.scores },
       "Score of " ++ toString score ++ "/10 added for " ++ a.name
         ++ "'s task: '" ++ task ++ "'")
    else
      (a, "Error: Score must be between 0 and 10.")
  else
    (a, "Error: Task '" ++ task ++ "' not assigned to " ++ a.name ++ ".")

/-- One task block of the performance summary. -/
def taskLine (a : Attachee) (task : String) : String :=
  let fb := (dlookup task a.feedback).getD ""
  "  - " ++ task ++ "\n    Score: "
    ++ toString ((dlookup task a.scores).getD 0) ++ "/10\n    Feedback: "
    ++ (if fb = "" then "No feedback yet" else fb) ++ "\n"

/-- Python `Attachee.get_performance_summary`.  A pure function of the record: the
Python method reads but never writes `self`.  The score/feedback lookups use
a default that, under the tasks-have-entries invariant, is never taken
(Python would raise `KeyError` there). -/
def get_performance_summary (a : Attachee) : String :=
  let header := "\n--- " ++ a.name ++ "'s Performance Summary (" ++ a.division
    ++ " Division) ---\n"
  if a.tasks.isEmpty then header ++ "No tasks assigned yet.\n"
  else
    header ++ "Average Score: " ++ toString a.average_score ++ "/10\nTasks:\n"
      ++ String.join (a.tasks.map (taskLine a))

end Attachee

/-- State of the `TechHub` registry (`src/main-task.py`, class `TechHub`). -/
structure TechHub where
  divisions : List String
  attachees : List Attachee
deriving DecidableEq

/-- The fixed four-element division set from `TechHub.__init__`. -/
def validDivisions : List String :=
  ["Engineering", "Tech Programs", "Radio Support", "Hub Support"]

namespace TechHub

/-- Python `TechHub.__init__`. -/
def init : TechHub :=
  { divisions := validDivisions, attachees := [] }

/-- Python `TechHub.add_attachee`. -/
def add_attachee (h : TechHub) (name division : String) : TechHub × String :=
  if division ∈ h.divisions then
    ({ h with attachees := h.attachees ++ [Attachee.init name division] },
     name ++ " added to " ++ division ++ " division.")
  else
    (h, "Error: " ++ division ++ " is not a valid division.")

/-- Python `TechHub.get_attachee`: first case-insensitive name match, else `None`. -/
def get_attachee (h : TechHub) (name : String) : Option Attachee :=
  h.attachees.find? (fun a => lowerStr a.name = lowerStr name)

/-- Python `TechHub.get_attachees_by_division`. -/
def get_attachees_by_division (h : TechHub) (division : String) : List Attachee :=
  if division ∈ h.divisions then
    h.attachees.filter (fun a => a.division = division)
  else []

/-- Python `TechHub.assign_task_by_division`.  The Python loop mutates, through
aliases, exactly the attachees whose division matches; the net effect on the
registry is the map below. -/
def assign_task_by_division (h : TechHub) (division task : String) :
    TechHub × String :=
  if division ∈ h.divisions then
    if (h.get_attachees_by_division division).isEmpty then
      (h, "No attachees found in " ++ division ++ " division.")
    else
      ({ h with attachees := h.attachees.map (fun a =>
           if a.division = division then (a.assign_task task).1 else a) },
       "Task '" ++ task ++ "' assigned to all attachees in " ++ division
         ++ " division.")
  else
    (h, "Error: " ++ division ++ " is not a valid division.")

end TechHub

/-- Assign a list of tasks in order (`assign_task` once per element). -/
def assignAll (a : Attachee) (ts : List String) : Attachee :=
  ts.foldl (fun b t => (b.assign_task t).1) a

/-- Add a list of (task, score) pairs in order (`add_score` once per pair). -/
def scoreAll (a : Attachee) (tss : List (String × Int)) : Attachee :=
  tss.foldl (fun b p => (b.add_score p.1 p.2).1) a

/-- Holds when the string `v` occurs verbatim inside the message `m`. -/
def mentions (v m : String) : Prop :=
  ∃ l r, m.data = l ++ v.data ++ r

/-- The invariant of claim C3: every assigned task name has an entry in both
the feedback and the scores dictionaries. -/
def tasksCovered (a : Attachee) : Prop :=
  ∀ t ∈ a.tasks, hasKey t a.feedback = true ∧ hasKey t a.scores = true

/-- Concrete record used by witnesses: Ann with the single task "T1". -/
def attA : Attachee := ((Attachee.init "Ann" "Engineering").assign_task "T1").1

/-- John's record after scoring his only task at 10: `average_score = 10`. -/
def johnScored : Attachee :=
  (Attachee.add_score
    ((Attachee.init "John" "Engineering").assign_task "Fix bug").1
    "Fix bug" 10).1

/-- John's record after re-assigning the already-scored task name. -/
def johnReassigned : Attachee := (johnScored.assign_task "Fix bug").1

/-- Registry with one Engineering attachee, used by witnesses. -/
def hubE : TechHub := (TechHub.init.add_attachee "Ann" "Engineering").1

/-- The spec scenario registry: two Engineering attachees and one
Tech Programs attachee. -/
def hub3 : TechHub :=
  (((TechHub.init.add_attachee "Ann" "Engineering").1.add_attachee
      "Ben" "Engineering").1.add_attachee "Cleo" "Tech Programs").1

lemma dlookup_dinsert_self {α : Type} (k : String) (v : α) (l : List (String × α)) :
    dlookup k (dinsert k v l) = some v := by
  induction l with
  | nil => simp [dinsert, dlookup]
  | cons p rest ih =>
    by_cases hp : p.1 = k
    · simp [dinsert, dlookup, hp]
    · simp [dinsert, dlookup, hp, ih]

lemma hasKey_dinsert_self {α : Type} (k : String) (v : α) (l : List (String × α)) :
    hasKey k (dinsert k v l) = true := by
  induction l with
  | nil => simp [dinsert, hasKey]
  | cons p rest ih =>
    by_cases hp : p.1 = k
    · simp [dinsert, hasKey, hp]
    · simp only [dinsert, hasKey, if_neg hp, List.any_cons]
      simp only [hasKey] at ih
      simp [ih]

lemma hasKey_dinsert_of_hasKey {α : Type} (t k : String) (v : α)
    (l : List (String × α)) (h : hasKey t l = true) :
    hasKey t (dinsert k v l) = true := by
  induction l with
  | nil => simp [hasKey] at h
  | cons p rest ih =>
    by_cases hp : p.1 = k
    · simp only [hasKey, List.any_cons] at h ⊢
      simp only [dinsert, if_pos hp, List.any_cons]
      rcases Bool.or_eq_true_iff.mp h with h1 | h1
      · rw [← hp]; simp [h1]
      · simp [h1]
    · simp only [dinsert, if_neg hp]
      simp only [hasKey, List.any_cons] at h ⊢
      rcases Bool.or_eq_true_iff.mp h with h1 | h1
      · simp [h1]
      · have := ih (by simpa [hasKey] using h1)
        simp only [hasKey] at this
        simp [this]

lemma hasKey_append_right_false {α : Type} (t : String)
    (l₁ l₂ : List (String × α)) (h₁ : hasKey t l₁ = false)
    (h₂ : hasKey t l₂ = false) : hasKey t (l₁ ++ l₂) = false := by
  simp only [hasKey, List.any_append, Bool.or_eq_false_iff]
  exact ⟨h₁, h₂⟩

lemma dinsert_of_not_hasKey {α : Type} (k : String) (v : α)
    (l : List (String × α)) (h : hasKey t l = false) (ht : t = k) :
    dinsert k v l = l ++ [(k, v)] := by
  subst ht
  induction l with
  | nil => simp [dinsert]
  | cons p rest ih =>
    simp only [hasKey, List.any_cons, Bool.or_eq_false_iff] at h
    have hp : ¬ p.1 = t := by
      intro hc
      simp [hc] at h
    simp only [dinsert, if_neg hp, List.cons_append, List.cons.injEq, true_and]
    exact ih (by simpa [hasKey] using h.2)

lemma dinsert_mid {α : Type} (k : String) (v w : α)
    (pre rest : List (String × α)) (h : hasKey k pre = false) :
    dinsert k v (pre ++ (k, w) :: rest) = pre ++ (k, v) :: rest := by
  induction pre with
  | nil => simp [dinsert]
  | cons p ps ih =>
    simp only [hasKey, List.any_cons, Bool.or_eq_false_iff] at h
    have hp : ¬ p.1 = k := by
      intro hc
      simp [hc] at h
    simp only [List.cons_append, dinsert, if_neg hp, List.cons.injEq, true_and]
    exact ih (by simpa [hasKey] using h.2)

@[simp] lemma update_avg_scores (b : Attachee) :
    (b._update_average_score).scores = b.scores := by
  unfold Attachee._update_average_score
  split <;> rfl

@[simp] lemma update_avg_tasks (b : Attachee) :
    (b._update_average_score).tasks = b.tasks := by
  unfold Attachee._update_average_score
  split <;> rfl

@[simp] lemma update_avg_feedback (b : Attachee) :
    (b._update_average_score).feedback = b.feedback := by
  unfold Attachee._update_average_score
  split <;> rfl

@[simp] lemma update_avg_name (b : Attachee) :
    (b._update_average_score).name = b.name := by
  unfold Attachee._update_average_score
  split <;> rfl

@[simp] lemma update_avg_division (b : Attachee) :
    (b._update_average_score).division = b.division := by
  unfold Attachee._update_average_score
  split <;> rfl

lemma update_avg_of_ne_nil (b : Attachee) (h : b.scores ≠ []) :
    (b._update_average_score).average_score = avgOf b.scores := by
  unfold Attachee._update_average_score
  rw [if_neg (by simpa [List.isEmpty_iff] using h)]

/-- C2: for a task `t` in the tasks list, `add_score t s` succeeds exactly
when `0 ≤ s ≤ 10`: in range it stores `s` under `t` and returns the success
message; out of range it returns the error message and leaves the whole
record (hence `scores[t]` and `average_score`) unchanged. -/
theorem C2_add_score_range (a : Attachee) (t : String) (s : Int)
    (ht : t ∈ a.tasks) :
    ((0 ≤ s ∧ s ≤ 10) →
       dlookup t (a.add_score t s).1.scores = some s ∧
       (a.add_score t s).2 = "Score of " ++ toString s ++ "/10 added for "
         ++ a.name ++ "'s task: '" ++ t ++ "'") ∧
    (¬ (0 ≤ s ∧ s ≤ 10) →
       (a.add_score t s).1 = a ∧
       (a.add_score t s).2 = "Error: Score must be between 0 and 10.") := by
  constructor
  · intro hr
    simp only [Attachee.add_score, if_pos ht, if_pos hr, update_avg_scores]
    exact ⟨dlookup_dinsert_self t s a.scores, by trivial⟩
  · intro hr
    simp only [Attachee.add_score, if_pos ht, if_neg hr]
    exact ⟨by trivial, by trivial⟩

/-- Witness for C2 at a concrete record, task and out-of-range score. -/
theorem C2_witness :
    ("T1" ∈ attA.tasks) ∧
    ((0 ≤ (11 : Int) ∧ (11 : Int) ≤ 10) →
       dlookup "T1" (attA.add_score "T1" 11).1.scores = some 11 ∧
       (attA.add_score "T1" 11).2 = "Score of " ++ toString (11 : Int)
         ++ "/10 added for " ++ attA.name ++ "'s task: '" ++ "T1" ++ "'") ∧
    (¬ (0 ≤ (11 : Int) ∧ (11 : Int) ≤ 10) →
       (attA.add_score "T1" 11).1 = attA ∧
       (attA.add_score "T1" 11).2 = "Error: Score must be between 0 and 10.") :=
  ⟨by decide, C2_add_score_range attA "T1" 11 (by decide)⟩

/-- C3: the tasks-have-entries invariant holds for a fresh record, and is
preserved by `assign_task`, `add_feedback` and `add_score`.
`get_performance_summary` reads but never writes the record (it returns only
a string in the embedding), so the state after it is `a` itself: the final
conjunct records that the invariant still holds there. -/
theorem C3_invariant (n d : String) (a : Attachee) (t u fb : String) (s : Int)
    (h : tasksCovered a) :
    tasksCovered (Attachee.init n d) ∧ tasksCovered (a.assign_task t).1 ∧
    tasksCovered (a.add_feedback u fb).1 ∧ tasksCovered (a.add_score u s).1 ∧ tasksCovered a := by
  refine ⟨?_, ?_, ?_, ?_, h⟩
  · intro x hx
    simp [Attachee.init] at hx
  · intro x hx
    simp only [Attachee.assign_task, List.mem_append, List.mem_singleton] at hx
    rcases hx with hx | hx
    · rcases h x hx with ⟨h1, h2⟩
      exact ⟨hasKey_dinsert_of_hasKey x t "" a.feedback h1,
             hasKey_dinsert_of_hasKey x t 0 a.scores h2⟩
    · subst hx
      exact ⟨hasKey_dinsert_self x "" a.feedback,
             hasKey_dinsert_self x 0 a.scores⟩
  · intro x hx
    unfold Attachee.add_feedback at hx ⊢
    by_cases hu : u ∈ a.tasks
    · simp only [if_pos hu] at hx ⊢
      rcases h x hx with ⟨h1, h2⟩
      exact ⟨hasKey_dinsert_of_hasKey x u fb a.feedback h1, h2⟩
    · simp only [if_neg hu] at hx ⊢
      exact h x hx
  · intro x hx
    unfold Attachee.add_score at hx ⊢
    by_cases hu : u ∈ a.tasks
    · by_cases hr : 0 ≤ s ∧ s ≤ 10
      · simp only [if_pos hu, if_pos hr, update_avg_tasks,
          update_avg_feedback, update_avg_scores] at hx ⊢
        rcases h x hx with ⟨h1, h2⟩
        exact ⟨h1, hasKey_dinsert_of_hasKey x u s a.scores h2⟩
      · simp only [if_pos hu, if_neg hr] at hx ⊢
        exact h x hx
    · simp only [if_neg hu] at hx ⊢
      exact h x hx

/-- Witness for C3 at the concrete record `attA`. -/
theorem C3_witness :
    tasksCovered attA ∧
    (tasksCovered (Attachee.init "B" "Hub Support") ∧ tasksCovered (attA.assign_task "T2").1 ∧
     tasksCovered (attA.add_feedback "T1" "good").1 ∧ tasksCovered (attA.add_score "T1" 7).1 ∧
     tasksCovered attA) :=
  have h : tasksCovered attA := by
    intro t htk
    refine ⟨?_, ?_⟩ <;> revert htk <;> revert t <;> decide
  ⟨h, C3_invariant "B" "Hub Support" attA "T2" "T1" "good" 7 h⟩

/-- C10: `assign_task` appends to `tasks`, resets the task's feedback and
score slots, and never touches `average_score`; in particular re-assigning an
already-scored task name leaves `average_score` stale (John keeps average 10
while his only score is back to 0, so the average no longer equals the mean
of the scores dictionary). -/
theorem C10_assign_frame (a : Attachee) (t : String) :
    (a.assign_task t).1.average_score = a.average_score ∧
    (a.assign_task t).1.tasks = a.tasks ++ [t] ∧
    dlookup t (a.assign_task t).1.feedback = some "" ∧
    dlookup t (a.assign_task t).1.scores = some 0 ∧
    johnScored.average_score = 10 ∧
    johnReassigned.average_score = 10 ∧
    dlookup "Fix bug" johnReassigned.scores = some 0 ∧
    johnReassigned.average_score ≠ avgOf johnReassigned.scores := by
  have hjs : johnScored.average_score = 10 := by
    simp [johnScored, Attachee.init, Attachee.assign_task, Attachee.add_score,
      Attachee._update_average_score, avgOf, dinsert]
  have hscores : johnReassigned.scores = [("Fix bug", 0)] := by
    simp [johnReassigned, johnScored, Attachee.init, Attachee.assign_task,
      Attachee.add_score, Attachee._update_average_score, dinsert]
  have hjr : johnReassigned.average_score = 10 := by
    simp only [johnReassigned, Attachee.assign_task]
    exact hjs
  refine ⟨rfl, rfl, dlookup_dinsert_self t "" a.feedback,
    dlookup_dinsert_self t 0 a.scores, hjs, hjr, ?_, ?_⟩
  · rw [hscores]
    simp [dlookup]
  · rw [hjr, hscores]
    norm_num [avgOf]

lemma assignAll_spec (ts : List String) (a : Attachee)
    (hdisj : ∀ t ∈ ts, hasKey t a.scores = false) (hnd : ts.Nodup) :
    (assignAll a ts).tasks = a.tasks ++ ts ∧
    (assignAll a ts).scores = a.scores ++ ts.map (fun t => (t, (0 : Int))) ∧
    (assignAll a ts).average_score = a.average_score := by
  induction ts generalizing a with
  | nil => simp [assignAll]
  | cons t ts' ih =>
    have ht : hasKey t a.scores = false := hdisj t (by simp)
    have hsc : (a.assign_task t).1.scores = a.scores ++ [(t, (0 : Int))] := by
      simp [Attachee.assign_task, dinsert_of_not_hasKey t (0 : Int) a.scores ht rfl]
    have hne : t ∉ ts' := (List.nodup_cons.mp hnd).1
    have hdisj' : ∀ u ∈ ts', hasKey u (a.assign_task t).1.scores = false := by
      intro u hu
      rw [hsc]
      refine hasKey_append_right_false u a.scores [(t, 0)]
        (hdisj u (by simp [hu])) ?_
      have hut : ¬ t = u := fun hc => hne (hc ▸ hu)
      simp [hasKey, hut]
    have hstep : assignAll a (t :: ts') = assignAll (a.assign_task t).1 ts' := rfl
    rw [hstep]
    obtain ⟨h1, h2, h3⟩ := ih (a.assign_task t).1 hdisj' (List.nodup_cons.mp hnd).2
    refine ⟨?_, ?_, ?_⟩
    · rw [h1]
      simp [Attachee.assign_task]
    · rw [h2, hsc]
      simp
    · rw [h3]
      simp [Attachee.assign_task]

lemma scoreAll_spec (ts : List String) : ∀ (ss : List Int)
    (pre : List (String × Int)) (a : Attachee),
    a.scores = pre ++ ts.map (fun t => (t, (0 : Int))) →
    (∀ t ∈ ts, t ∈ a.tasks) →
    (∀ t ∈ ts, hasKey t pre = false) →
    ts.Nodup →
    ss.length = ts.length →
    (∀ s ∈ ss, 0 ≤ s ∧ s ≤ 10) →
    (scoreAll a (ts.zip ss)).scores = pre ++ ts.zip ss ∧
    (scoreAll a (ts.zip ss)).tasks = a.tasks ∧
    (ts = [] → scoreAll a (ts.zip ss) = a) ∧
    (ts ≠ [] → (scoreAll a (ts.zip ss)).average_score
        = avgOf (scoreAll a (ts.zip ss)).scores) := by
  induction ts with
  | nil =>
    intro ss pre a hsc htk hpre hnd hlen hrange
    refine ⟨by simpa using hsc, rfl, fun _ => rfl, fun hne => absurd rfl hne⟩
  | cons t ts' ih =>
    intro ss pre a hsc htk hpre hnd hlen hrange
    cases ss with
    | nil => simp at hlen
    | cons s ss' =>
      have hlen' : ss'.length = ts'.length := by simpa using hlen
      have ht : t ∈ a.tasks := htk t (by simp)
      have hr : 0 ≤ s ∧ s ≤ 10 := hrange s (by simp)
      have hpt : hasKey t pre = false := hpre t (by simp)
      have hins : dinsert t s a.scores
          = pre ++ (t, s) :: ts'.map (fun u => (u, (0 : Int))) := by
        rw [hsc]
        exact dinsert_mid t s 0 pre _ hpt
      have hstep : scoreAll a ((t :: ts').zip (s :: ss'))
          = scoreAll (a.add_score t s).1 (ts'.zip ss') := rfl
      have ha1eq : (a.add_score t s).1 = Attachee._update_average_score
          { a with scores := dinsert t s a.scores } := by
        simp [Attachee.add_score, if_pos ht, if_pos hr]
      have ha1sc : (a.add_score t s).1.scores
          = (pre ++ [(t, s)]) ++ ts'.map (fun u => (u, (0 : Int))) := by
        rw [ha1eq, update_avg_scores]
        simpa [List.append_assoc] using hins
      have ha1tk : (a.add_score t s).1.tasks = a.tasks := by
        rw [ha1eq, update_avg_tasks]
      have hne : t ∉ ts' := (List.nodup_cons.mp hnd).1
      have hnd' : ts'.Nodup := (List.nodup_cons.mp hnd).2
      have hpre' : ∀ u ∈ ts', hasKey u (pre ++ [(t, s)]) = false := by
        intro u hu
        refine hasKey_append_right_false u pre [(t, s)]
          (hpre u (by simp [hu])) ?_
        have hut : ¬ t = u := fun hc => hne (hc ▸ hu)
        simp [hasKey, hut]
      have htk' : ∀ u ∈ ts', u ∈ (a.add_score t s).1.tasks := by
        intro u hu
        rw [ha1tk]
        exact htk u (by simp [hu])
      have hrange' : ∀ x ∈ ss', 0 ≤ x ∧ x ≤ 10 := fun x hx =>
        hrange x (by simp [hx])
      obtain ⟨ihsc, ihtk, _, ihavg⟩ :=
        ih ss' (pre ++ [(t, s)]) (a.add_score t s).1 ha1sc htk' hpre' hnd'
          hlen' hrange'
      rw [hstep]
      refine ⟨?_, ?_, ?_, ?_⟩
      · rw [ihsc]
        simp
      · rw [ihtk, ha1tk]
      · intro hc
        simp at hc
      · intro _
        by_cases hts' : ts' = []
        · subst hts'
          have hfin : scoreAll (a.add_score t s).1 (List.zip [] ss')
              = (a.add_score t s).1 := rfl
          rw [hfin, ha1eq]
          have hnn : ({ a with scores := dinsert t s a.scores } : Attachee).scores
              ≠ [] := by
            simp only [hins]
            simp
          rw [update_avg_of_ne_nil _ hnn, update_avg_scores]
        · exact ihavg hts'

/-- C1: starting from a fresh record, assigning distinct tasks `ts` and then
calling `add_score` exactly once per task with in-range scores `ss` leaves
`average_score` equal to the arithmetic mean of the scores.  (With no tasks
both sides are 0, as division by zero is 0 for rationals.) -/
theorem C1_average_score_law (n d : String) (ts : List String) (ss : List Int)
    (hnd : ts.Nodup) (hlen : ss.length = ts.length)
    (hrange : ∀ s ∈ ss, 0 ≤ s ∧ s ≤ 10) :
    (scoreAll (assignAll (Attachee.init n d) ts) (ts.zip ss)).average_score
      = ((ss.sum : Int) : ℚ) / (ts.length : ℚ) := by
  have hdisj : ∀ t ∈ ts, hasKey t (Attachee.init n d).scores = false := by
    intro t _
    rfl
  obtain ⟨hA_tasks, hA_scores, hA_avg⟩ :=
    assignAll_spec ts (Attachee.init n d) hdisj hnd
  have hsc : (assignAll (Attachee.init n d) ts).scores
      = [] ++ ts.map (fun t => (t, (0 : Int))) := by
    simpa [Attachee.init] using hA_scores
  have htk : ∀ t ∈ ts, t ∈ (assignAll (Attachee.init n d) ts).tasks := by
    intro t htm
    rw [hA_tasks]
    simp [Attachee.init, htm]
  have hpre : ∀ t ∈ ts, hasKey t ([] : List (String × Int)) = false := by
    intro t _
    rfl
  obtain ⟨hfsc, _, hnilcase, havg⟩ :=
    scoreAll_spec ts ss [] (assignAll (Attachee.init n d) ts) hsc htk hpre
      hnd hlen hrange
  by_cases hts : ts = []
  · subst hts
    have hss : ss = [] := List.length_eq_zero.mp hlen
    subst hss
    rw [hnilcase rfl, hA_avg]
    simp [Attachee.init]
  · rw [havg hts, hfsc]
    have hzlen : (ts.zip ss).length = ts.length := by
      rw [List.length_zip, hlen, min_self]
    have hzsnd : (ts.zip ss).map Prod.snd = ss :=
      List.map_snd_zip ts ss (le_of_eq hlen)
    simp only [avgOf, List.nil_append, hzlen, hzsnd]

/-- Witness for C1 at two concrete tasks scored 4 and 7: average 11/2. -/
theorem C1_witness :
    (["x", "y"] : List String).Nodup ∧
    (scoreAll (assignAll (Attachee.init "Ann" "Engineering") ["x", "y"])
       (["x", "y"].zip [4, 7])).average_score
      = ((([4, 7] : List Int).sum : Int) : ℚ)
          / ((["x", "y"] : List String).length : ℚ) :=
  ⟨by decide,
   C1_average_score_law "Ann" "Engineering" ["x", "y"] [4, 7] (by decide)
     (by decide) (by decide)⟩

/-- C4: `add_attachee` rejects a division outside the fixed four-element set
with a message naming it and leaves the registry unchanged; for a valid
division it appends exactly one fresh record and returns a confirmation. -/
theorem C4_add_attachee (h : TechHub) (n d : String)
    (hfix : h.divisions = validDivisions) :
    (d ∉ validDivisions →
       (h.add_attachee n d).1 = h ∧
       (h.add_attachee n d).2 = "Error: " ++ d ++ " is not a valid division.") ∧
    (d ∈ validDivisions →
       (h.add_attachee n d).1.attachees = h.attachees ++ [Attachee.init n d] ∧
       (h.add_attachee n d).1.divisions = h.divisions ∧
       (h.add_attachee n d).2 = n ++ " added to " ++ d ++ " division.") := by
  constructor
  · intro hd
    have hd' : d ∉ h.divisions := by rw [hfix]; exact hd
    simp only [TechHub.add_attachee, if_neg hd']
    exact ⟨by trivial, by trivial⟩
  · intro hd
    have hd' : d ∈ h.divisions := by rw [hfix]; exact hd
    simp only [TechHub.add_attachee, if_pos hd']
    exact ⟨by trivial, by trivial, by trivial⟩

/-- Witness for C4 at the empty registry and the invalid division
"Marketing" (and, via the second arm, any valid one). -/
theorem C4_witness :
    ("Marketing" ∉ validDivisions →
       (TechHub.init.add_attachee "Alex" "Marketing").1 = TechHub.init ∧
       (TechHub.init.add_attachee "Alex" "Marketing").2
         = "Error: " ++ "Marketing" ++ " is not a valid division.") ∧
    ("Marketing" ∈ validDivisions →
       (TechHub.init.add_attachee "Alex" "Marketing").1.attachees
         = TechHub.init.attachees ++ [Attachee.init "Alex" "Marketing"] ∧
       (TechHub.init.add_attachee "Alex" "Marketing").1.divisions
         = TechHub.init.divisions ∧
       (TechHub.init.add_attachee "Alex" "Marketing").2
         = "Alex" ++ " added to " ++ "Marketing" ++ " division.") :=
  C4_add_attachee TechHub.init "Alex" "Marketing" rfl

/-- C5 counterexample: with a same-named attachee already in Engineering,
adding "Bob" to Hub Support and then looking him up returns the earlier
Engineering record, not one with division "Hub Support". -/
theorem C5_counterexample :
    (TechHub.get_attachee
       ((TechHub.init.add_attachee "Bob" "Engineering").1.add_attachee
          "Bob" "Hub Support").1 "Bob").map Attachee.division
      = some "Engineering" ∧
    ("Engineering" : String) ≠ "Hub Support" := by
  exact ⟨by decide, by decide⟩

/-- C5 (amended): when additionally no attachee already in the registry has a
case-insensitively equal name, `add_attachee n d` followed by
`get_attachee n` returns a record with `division = d` and `tasks = []`. -/
theorem C5_add_then_get (h : TechHub) (n d : String)
    (hd : d ∈ h.divisions)
    (hfresh : ∀ a ∈ h.attachees, ¬ lowerStr a.name = lowerStr n) :
    ∃ a, (h.add_attachee n d).1.get_attachee n = some a ∧
      a.division = d ∧ a.tasks = [] := by
  refine ⟨Attachee.init n d, ?_, rfl, rfl⟩
  simp only [TechHub.add_attachee, if_pos hd, TechHub.get_attachee]
  rw [List.find?_append]
  have h1 : h.attachees.find? (fun a => lowerStr a.name = lowerStr n) = none := by
    rw [List.find?_eq_none]
    intro a ha
    simpa using hfresh a ha
  rw [h1]
  simp [Attachee.init, List.find?]

/-- Witness for C5 (amended) at the empty registry. -/
theorem C5_witness :
    ("Engineering" ∈ TechHub.init.divisions) ∧
    ∃ a, (TechHub.init.add_attachee "Bob" "Engineering").1.get_attachee "Bob"
        = some a ∧ a.division = "Engineering" ∧ a.tasks = [] :=
  ⟨by decide,
   C5_add_then_get TechHub.init "Bob" "Engineering" (by decide) (by decide)⟩

/-- C6: `get_attachee` returns `none` exactly when no attachee's name matches
case-insensitively, and any returned record is the first such match in
insertion order (everything before it in `attachees` fails the match). -/
theorem C6_get_attachee_first_match (h : TechHub) (n : String) :
    (h.get_attachee n = none ↔
       ∀ a ∈ h.attachees, ¬ lowerStr a.name = lowerStr n) ∧
    (∀ a, h.get_attachee n = some a →
       lowerStr a.name = lowerStr n ∧
       ∃ l1 l2, h.attachees = l1 ++ a :: l2 ∧
         ∀ b ∈ l1, ¬ lowerStr b.name = lowerStr n) := by
  constructor
  · rw [TechHub.get_attachee, List.find?_eq_none]
    constructor
    · intro hx a ha
      simpa using hx a ha
    · intro hx a ha
      simpa using hx a ha
  · intro a ha
    rw [TechHub.get_attachee, List.find?_eq_some] at ha
    obtain ⟨hp, l1, l2, hsplit, hbefore⟩ := ha
    refine ⟨by simpa using hp, l1, l2, hsplit, ?_⟩
    intro b hb
    have := hbefore b hb
    simpa using this

/-- Witness for C6: lookup in the empty registry returns `none`. -/
theorem C6_witness : TechHub.init.get_attachee "Zed" = none :=
  (C6_get_attachee_first_match TechHub.init "Zed").1.mpr (by decide)

/-- C7: `assign_task_by_division` either rejects an invalid division
unchanged, reports a valid-but-empty division unchanged, or assigns the task
to exactly the attachees of that division (each other record untouched) and
returns the bulk confirmation. -/
theorem C7_assign_by_division (h : TechHub) (d t : String) :
    (d ∉ h.divisions →
       (h.assign_task_by_division d t).1 = h ∧
       (h.assign_task_by_division d t).2
         = "Error: " ++ d ++ " is not a valid division.") ∧
    (d ∈ h.divisions → h.get_attachees_by_division d = [] →
       (h.assign_task_by_division d t).1 = h ∧
       (h.assign_task_by_division d t).2
         = "No attachees found in " ++ d ++ " division.") ∧
    (d ∈ h.divisions → h.get_attachees_by_division d ≠ [] →
       (h.assign_task_by_division d t).2
         = "Task '" ++ t ++ "' assigned to all attachees in " ++ d
           ++ " division." ∧
       (h.assign_task_by_division d t).1.divisions = h.divisions ∧
       (h.assign_task_by_division d t).1.attachees.length
         = h.attachees.length ∧
       ∀ i : Nat, (h.assign_task_by_division d t).1.attachees[i]?
         = (h.attachees[i]?).map (fun a =>
             if a.division = d then (a.assign_task t).1 else a)) := by
  refine ⟨?_, ?_, ?_⟩
  · intro hd
    simp only [TechHub.assign_task_by_division, if_neg hd]
    exact ⟨by trivial, by trivial⟩
  · intro hd hemp
    have hemp' : (h.get_attachees_by_division d).isEmpty = true :=
      List.isEmpty_iff.mpr hemp
    simp only [TechHub.assign_task_by_division, if_pos hd, hemp', if_pos rfl]
    exact ⟨by trivial, by trivial⟩
  · intro hd hne
    have hemp' : ¬ (h.get_attachees_by_division d).isEmpty = true := by
      rw [List.isEmpty_iff]
      exact hne
    simp only [TechHub.assign_task_by_division, if_pos hd, if_neg hemp']
    refine ⟨by trivial, by trivial, by simp, ?_⟩
    intro i
    simp [List.getElem?_map]

/-- Witness for C7 at `hubE`, a valid division with one attachee. -/
theorem C7_witness :
    ("Engineering" ∈ hubE.divisions) ∧
    hubE.get_attachees_by_division "Engineering" ≠ [] ∧
    ((hubE.assign_task_by_division "Engineering" "T").2
       = "Task '" ++ "T" ++ "' assigned to all attachees in " ++ "Engineering"
         ++ " division." ∧
     (hubE.assign_task_by_division "Engineering" "T").1.divisions
       = hubE.divisions ∧
     (hubE.assign_task_by_division "Engineering" "T").1.attachees.length
       = hubE.attachees.length ∧
     ∀ i : Nat, (hubE.assign_task_by_division "Engineering" "T").1.attachees[i]?
       = (hubE.attachees[i]?).map (fun a =>
           if a.division = "Engineering" then (a.assign_task "T").1 else a)) :=
  ⟨by decide, by decide,
   (C7_assign_by_division hubE "Engineering" "T").2.2 (by decide) (by decide)⟩

/-- C8: `get_attachees_by_division` returns `[]` both for an invalid division
and for a valid division with no members; for any division it returns,
in insertion order (a sublist of `attachees`), exactly the records whose
division matches. -/
theorem C8_get_by_division (h : TechHub) (d : String) :
    (d ∉ h.divisions → h.get_attachees_by_division d = []) ∧
    ((∀ a ∈ h.attachees, ¬ a.division = d) →
       h.get_attachees_by_division d = []) ∧
    List.Sublist (h.get_attachees_by_division d) h.attachees ∧
    (∀ a ∈ h.get_attachees_by_division d, a.division = d ∧ a ∈ h.attachees) ∧
    (d ∈ h.divisions → ∀ a ∈ h.attachees, a.division = d →
       a ∈ h.get_attachees_by_division d) := by
  refine ⟨?_, ?_, ?_, ?_, ?_⟩
  · intro hd
    simp only [TechHub.get_attachees_by_division, if_neg hd]
  · intro hall
    unfold TechHub.get_attachees_by_division
    split
    · rw [List.filter_eq_nil_iff]
      intro a ha
      simpa using hall a ha
    · rfl
  · unfold TechHub.get_attachees_by_division
    split
    · exact List.filter_sublist h.attachees
    · exact List.nil_sublist h.attachees
  · intro a ha
    unfold TechHub.get_attachees_by_division at ha
    split at ha
    · rw [List.mem_filter] at ha
      exact ⟨by simpa using ha.2, ha.1⟩
    · simp at ha
  · intro hd a ha hdiv
    simp only [TechHub.get_attachees_by_division, if_pos hd, List.mem_filter]
    exact ⟨ha, by simpa using hdiv⟩

/-- Witness for C8: the spec scenario with two Engineering attachees and one
Tech Programs attachee. -/
theorem C8_witness :
    ("Engineering" ∉ hub3.divisions → hub3.get_attachees_by_division "Engineering" = []) ∧
    ((∀ a ∈ hub3.attachees, ¬ a.division = "Engineering") →
       hub3.get_attachees_by_division "Engineering" = []) ∧
    List.Sublist (hub3.get_attachees_by_division "Engineering") hub3.attachees ∧
    (∀ a ∈ hub3.get_attachees_by_division "Engineering",
       a.division = "Engineering" ∧ a ∈ hub3.attachees) ∧
    ("Engineering" ∈ hub3.divisions → ∀ a ∈ hub3.attachees,
       a.division = "Engineering" →
         a ∈ hub3.get_attachees_by_division "Engineering") :=
  C8_get_by_division hub3 "Engineering"

lemma str_data_append (s t : String) : (s ++ t).data = s.data ++ t.data := rfl

lemma mentions_iff (v m : String) : mentions v m ↔ v.data <:+: m.data := by
  constructor
  · rintro ⟨l, r, hm⟩
    exact ⟨l, r, by rw [hm]⟩
  · rintro ⟨l, r, hm⟩
    exact ⟨l, r, by rw [← hm]⟩

/-- C9 counterexample: the out-of-range score message is a fixed string that
names neither the task, nor the offending score, nor the record's name — so
not every failing operation's message names the offending value. -/
theorem C9_counterexample :
    (attA.add_score "T1" 11).2 = "Error: Score must be between 0 and 10." ∧
    ¬ mentions "T1" (attA.add_score "T1" 11).2 ∧
    ¬ mentions "11" (attA.add_score "T1" 11).2 ∧
    ¬ mentions "Ann" (attA.add_score "T1" 11).2 := by
  refine ⟨by decide, ?_, ?_, ?_⟩ <;>
    · rw [mentions_iff]
      decide

/-- C9 (amended): the invalid-division and unassigned-task error messages
name the offending value (the division; the task and the record's name) and
the nature of the violation; the out-of-range score message is the fixed
string "Error: Score must be between 0 and 10.", naming no offending value;
a failed name lookup returns the `none` signal rather than a message. -/
theorem C9_error_messages (h : TechHub) (nn d : String) (a : Attachee)
    (t t2 fb : String) (s s2 : Int)
    (hd : d ∉ h.divisions) (ht : t ∉ a.tasks) (ht2 : t2 ∈ a.tasks)
    (hs2 : ¬ (0 ≤ s2 ∧ s2 ≤ 10))
    (hnf : ∀ x ∈ h.attachees, ¬ lowerStr x.name = lowerStr nn) :
    (mentions d (h.add_attachee nn d).2 ∧
     mentions " is not a valid division." (h.add_attachee nn d).2) ∧
    (mentions t (a.add_feedback t fb).2 ∧
     mentions a.name (a.add_feedback t fb).2 ∧
     mentions "' not assigned to " (a.add_feedback t fb).2) ∧
    (mentions t (a.add_score t s).2 ∧
     mentions a.name (a.add_score t s).2 ∧
     mentions "' not assigned to " (a.add_score t s).2) ∧
    (a.add_score t2 s2).2 = "Error: Score must be between 0 and 10." ∧
    h.get_attachee nn = none := by
  refine ⟨?_, ?_, ?_, ?_, ?_⟩
  · simp only [TechHub.add_attachee, if_neg hd]
    constructor
    · exact ⟨("Error: " : String).data, (" is not a valid division." : String).data,
        by simp [str_data_append, List.append_assoc]⟩
    · exact ⟨("Error: " ++ d).data, ([] : List Char),
        by simp [str_data_append, List.append_assoc]⟩
  · simp only [Attachee.add_feedback, if_neg ht]
    refine ⟨?_, ?_, ?_⟩
    · exact ⟨("Error: Task '" : String).data,
        ("' not assigned to " ++ a.name ++ ".").data,
        by simp [str_data_append, List.append_assoc]⟩
    · exact ⟨("Error: Task '" ++ t ++ "' not assigned to ").data,
        ("." : String).data, by simp [str_data_append, List.append_assoc]⟩
    · exact ⟨("Error: Task '" ++ t).data, (a.name ++ ".").data,
        by simp [str_data_append, List.append_assoc]⟩
  · simp only [Attachee.add_score, if_neg ht]
    refine ⟨?_, ?_, ?_⟩
    · exact ⟨("Error: Task '" : String).data,
        ("' not assigned to " ++ a.name ++ ".").data,
        by simp [str_data_append, List.append_assoc]⟩
    · exact ⟨("Error: Task '" ++ t ++ "' not assigned to ").data,
        ("." : String).data, by simp [str_data_append, List.append_assoc]⟩
    · exact ⟨("Error: Task '" ++ t).data, (a.name ++ ".").data,
        by simp [str_data_append, List.append_assoc]⟩
  · simp only [Attachee.add_score, if_pos ht2, if_neg hs2]
  · rw [TechHub.get_attachee, List.find?_eq_none]
    intro x hx
    simpa using hnf x hx

/-- Witness for C9 (amended) at concrete failing inputs. -/
theorem C9_witness :
    (mentions "Marketing" (hubE.add_attachee "Alex" "Marketing").2 ∧
     mentions " is not a valid division." (hubE.add_attachee "Alex" "Marketing").2) ∧
    (mentions "T9" (attA.add_feedback "T9" "x").2 ∧
     mentions attA.name (attA.add_feedback "T9" "x").2 ∧
     mentions "' not assigned to " (attA.add_feedback "T9" "x").2) ∧
    (mentions "T9" (attA.add_score "T9" 5).2 ∧
     mentions attA.name (attA.add_score "T9" 5).2 ∧
     mentions "' not assigned to " (attA.add_score "T9" 5).2) ∧
    (attA.add_score "T1" 11).2 = "Error: Score must be between 0 and 10." ∧
    hubE.get_attachee "Alex" = none :=
  C9_error_messages hubE "Alex" "Marketing" attA "T9" "T1" "x" 5 11
    (by decide) (by decide) (by decide) (by decide) (by decide)

/-- Witness for C10 at the concrete record `attA` and task "T2". -/
theorem C10_witness :
    (attA.assign_task "T2").1.average_score = attA.average_score ∧
    (attA.assign_task "T2").1.tasks = attA.tasks ++ ["T2"] ∧
    dlookup "T2" (attA.assign_task "T2").1.feedback = some "" ∧
    dlookup "T2" (attA.assign_task "T2").1.scores = some 0 ∧
    johnScored.average_score = 10 ∧
    johnReassigned.average_score = 10 ∧
    dlookup "Fix bug" johnReassigned.scores = some 0 ∧
    johnReassigned.average_score ≠ avgOf johnReassigned.scores :=
  C10_assign_frame attA "T2"
